import Mathlib

/-!
Verification development for the md-to-docx template-filling pipeline.

The Lean definitions below are shallow embeddings of the Python sources:

* `src/src/models.py`          — placeholder data model and `parse_placeholder_id`
* `src/src/markdown_parser.py` — the `ContentBlock` record (fields used downstream)
* `src/src/llm_content_mapper.py` — rule-based and LLM-backed mapping engine
* `src/src/template_analyzer.py`  — style records and inheritance resolution
* `src/src/template_page_analyzer.py` — page splitting and classification
* `src/src/style_mapper.py`    — role-to-style resolution
* `src/src/docx_composer.py`   — placeholder substitution in paragraphs

Python `int` is modelled by `Int` (block indices may in principle be any
integer when they come from an LLM response), Python `float` confidence
values by `ℚ` (only the literal constants 0.0, 0.7, 0.8 occur, all exact),
Python strings by `String`/`List Char`, and Python dicts that preserve
insertion order by association lists.  Fallible code returns `Option`.
-/

namespace MdToDocx

/-! ### Small Python-style helpers -/

/-- Python `str.strip(chars)`: remove the given characters from both ends. -/
def pyStrip (chars : List Char) (s : List Char) : List Char :=
  ((s.dropWhile (· ∈ chars)).reverse.dropWhile (· ∈ chars)).reverse

/-- Python `str.upper()` (the identifiers handled here are ASCII). -/
def upper_str (s : String) : String := String.mk (s.toList.map Char.toUpper)

/-- Python `str.lower()` (the style names handled here are ASCII). -/
def lower_str (s : String) : String := String.mk (s.toList.map Char.toLower)

/-- Python `needle in hay` on strings (substring containment). -/
def contains_sub (needle : List Char) : List Char → Bool
  | [] => needle.isPrefixOf []
  | c :: cs => needle.isPrefixOf (c :: cs) || contains_sub needle cs

/-- Value of a run of decimal digit characters. -/
def digits_val (ds : List Char) : Nat :=
  ds.foldl (fun a c => a * 10 + (c.toNat - '0'.toNat)) 0

/-- Python `enumerate`, with the counter as a Python `int`. -/
def enum_from {α : Type} (k : Int) : List α → List (Int × α)
  | [] => []
  | b :: bs => (k, b) :: enum_from (k + 1) bs

/-- The list `[k, k+1, ..., k+n-1]` of Python ints. -/
def int_range_from (k : Int) : Nat → List Int
  | 0 => []
  | n + 1 => k :: int_range_from (k + 1) n

/-- Python `range(n)` as a list of ints. -/
def int_range (n : Nat) : List Int := int_range_from 0 n

/-! ### Block model (`markdown_parser.ContentBlock`, `DocumentStructure`)

Only the fields consumed by the mapping engine and the composer are kept:
`block_type`, `content`, `level`, `list_type`, `children` and the
`attributes["rows"]` table payload (modelled as `rows`, each row being its
list of cell strings). -/

inductive ContentBlock : Type where
  | mk (block_type : String) (content : String) (level : Nat) (list_type : String)
       (children : List ContentBlock) (rows : List (List String)) : ContentBlock

def ContentBlock.block_type : ContentBlock → String
  | .mk t _ _ _ _ _ => t

def ContentBlock.content : ContentBlock → String
  | .mk _ c _ _ _ _ => c

def ContentBlock.level : ContentBlock → Nat
  | .mk _ _ l _ _ _ => l

def ContentBlock.list_type : ContentBlock → String
  | .mk _ _ _ lt _ _ => lt

def ContentBlock.children : ContentBlock → List ContentBlock
  | .mk _ _ _ _ ch _ => ch

def ContentBlock.rows : ContentBlock → List (List String)
  | .mk _ _ _ _ _ r => r

/-- Convenience constructor for a heading block. -/
def heading_block (content : String) (level : Nat) : ContentBlock :=
  ContentBlock.mk "heading" content level "" [] []

/-- Convenience constructor for a paragraph block. -/
def paragraph_block (content : String) : ContentBlock :=
  ContentBlock.mk "paragraph" content 0 "" [] []

/-- `markdown_parser.DocumentStructure`, restricted to the index-addressable
block sequence that the mapping plans reference. -/
structure DocumentStructure where
  raw_blocks : List ContentBlock

/-! ### Placeholder data model (`models.py`) -/

/-- `models.PlaceholderType`.  The Python member `SECTION` is called `sect`
here because `section` is a Lean keyword. -/
inductive PlaceholderType : Type where
  | title | subtitle | date | author | toc | body | sect | image | custom
deriving DecidableEq

/-- `models.Placeholder`, restricted to the fields the mapping engine reads. -/
structure Placeholder where
  id : String
  placeholder_type : PlaceholderType
  section_number : Option Nat := none
deriving DecidableEq

/-- `models.ParsedTemplate`, restricted to the placeholder list. -/
structure ParsedTemplate where
  placeholders : List Placeholder
deriving DecidableEq

/-- `models.ContentMapping` (the `style_override` field is never consulted
by the code under study and is omitted). -/
structure ContentMapping where
  placeholder_id : String
  content_block_indices : List Int
  transformation : String := "none"
deriving DecidableEq

/-- `models.ContentMappingPlan`. -/
structure ContentMappingPlan where
  mappings : List ContentMapping := []
  unmapped_content : List Int := []
  warnings : List String := []
  confidence : ℚ := 0
deriving DecidableEq

/-- `ContentMappingPlan.get_mapping_for_placeholder`: first mapping whose id
equals the requested one. -/
def get_mapping_for_placeholder (plan : ContentMappingPlan) (placeholder_id : String) :
    Option ContentMapping :=
  plan.mappings.find? (fun m => m.placeholder_id == placeholder_id)

/-- `models.PLACEHOLDER_TYPE_MAP` as an association list (insertion order). -/
def placeholder_type_map : List (List Char × PlaceholderType) :=
  [("TITLE".toList, PlaceholderType.title),
   ("SUBTITLE".toList, PlaceholderType.subtitle),
   ("DATE".toList, PlaceholderType.date),
   ("AUTHOR".toList, PlaceholderType.author),
   ("TOC".toList, PlaceholderType.toc),
   ("BODY".toList, PlaceholderType.body),
   ("IMAGE".toList, PlaceholderType.image),
   ("COVER_IMAGE".toList, PlaceholderType.image)]

/-- `re.match(r"SECTION_(\d+)", s)`: an anchored prefix match; the group is
the maximal digit run after `SECTION_` (the token alphabet is ASCII). -/
def section_match (s : List Char) : Option Nat :=
  if "SECTION_".toList.isPrefixOf s then
    let ds := (s.drop 8).takeWhile Char.isDigit
    if ds = [] then none else some (digits_val ds)
  else none

/-- `models.parse_placeholder_id`.  Note that the source strips only brace
characters (`placeholder_id.strip("\x7b\x7d")`) before the lookups. -/
def parse_placeholder_id (placeholder_id : String) : PlaceholderType × Option Nat :=
  let clean_id := pyStrip ['\x7b', '\x7d'] placeholder_id.toList
  match section_match clean_id with
  | some n => (PlaceholderType.sect, some n)
  | none =>
    match placeholder_type_map.lookup clean_id with
    | some t => (t, none)
    | none => (PlaceholderType.custom, none)

/-- The four lexical forms of `models.PLACEHOLDER_PATTERNS`.  `wrap_token pk
ident` is the literal text (`match.group(0)`) that the extractor regex of
the selected pattern matches for the identifier `ident`. -/
inductive PatternKind : Type where
  | default | bracket | angle | underscore
deriving DecidableEq

def wrap_token : PatternKind → String → String
  | PatternKind.default, ident => "\x7b\x7b" ++ ident ++ "\x7d\x7d"
  | PatternKind.bracket, ident => "[[" ++ ident ++ "]]"
  | PatternKind.angle, ident => "<<" ++ ident ++ ">>"
  | PatternKind.underscore, ident => "___" ++ ident ++ "___"

/-- Identifier-only resolution (what resolving "from the token's identifier
alone" means): the `SECTION_n` check and the exact map applied to the bare
identifier, with no wrapper present. -/
def resolve_identifier (ident : String) : PlaceholderType × Option Nat :=
  match section_match ident.toList with
  | some n => (PlaceholderType.sect, some n)
  | none =>
    match placeholder_type_map.lookup ident.toList with
    | some t => (t, none)
    | none => (PlaceholderType.custom, none)

/-! ### Rule-based mapping engine (`llm_content_mapper.LLMContentMapper`)

Each Python `for i, block in enumerate(blocks)` loop of
`_auto_map_placeholder` is translated as a recursion over the enumerated
block list; `used_indices` is a list with set semantics (only membership is
ever queried). -/

/-- TITLE branch: first unused heading of level 1. -/
def title_loop (used : List Int) : List (Int × ContentBlock) → List Int
  | [] => []
  | (i, b) :: rest =>
    if i ∈ used then title_loop used rest
    else if b.block_type = "heading" ∧ b.level = 1 then [i]
    else title_loop used rest

/-- SUBTITLE branch: both `if` tests sit in the same loop iteration, and the
`not indices` guard of the second is always true when reached (the first
append breaks out of the loop). -/
def subtitle_loop (used : List Int) : List (Int × ContentBlock) → List Int
  | [] => []
  | (i, b) :: rest =>
    if i ∈ used then subtitle_loop used rest
    else if b.block_type = "heading" ∧ b.level = 2 then [i]
    else if b.block_type = "paragraph" then [i]
    else subtitle_loop used rest

/-- BODY branch: all remaining unused blocks, skipping one leading heading of
level ≤ 2 (the `skip_first_heading` flag). -/
def body_loop (used : List Int) : List (Int × ContentBlock) → Bool → List Int
  | [], _ => []
  | (i, b) :: rest, skip_first_heading =>
    if i ∈ used then body_loop used rest skip_first_heading
    else if skip_first_heading ∧ b.block_type = "heading" ∧ b.level ≤ 2 then
      body_loop used rest false
    else i :: body_loop used rest skip_first_heading

/-- SECTION branch: `current_section` counts unused level-2 headings,
`in_section` tracks whether the counter equals the requested section
number, and the loop breaks once the counter exceeds it. -/
def section_loop (section_num : Nat) (used : List Int) :
    List (Int × ContentBlock) → Nat → Bool → List Int
  | [], _, _ => []
  | (i, b) :: rest, current_section, in_section =>
    if i ∈ used then section_loop section_num used rest current_section in_section
    else if b.block_type = "heading" ∧ b.level = 2 then
      let cur := current_section + 1
      if cur = section_num then i :: section_loop section_num used rest cur true
      else if section_num < cur then []
      else section_loop section_num used rest cur false
    else if in_section then i :: section_loop section_num used rest current_section in_section
    else section_loop section_num used rest current_section in_section

/-- Python `placeholder.section_number or 1` (both `None` and `0` are falsy). -/
def effective_section_number (p : Placeholder) : Nat :=
  match p.section_number with
  | none => 1
  | some 0 => 1
  | some k => k

/-- `LLMContentMapper._auto_map_placeholder`. -/
def auto_map_placeholder (p : Placeholder) (blocks : List ContentBlock) (used : List Int) :
    Option ContentMapping :=
  if p.placeholder_type = PlaceholderType.toc then
    some { placeholder_id := p.id, content_block_indices := [], transformation := "none" }
  else
    let l := enum_from 0 blocks
    let indices : List Int :=
      match p.placeholder_type with
      | PlaceholderType.title => title_loop used l
      | PlaceholderType.subtitle => subtitle_loop used l
      | PlaceholderType.body => body_loop used l true
      | PlaceholderType.sect => section_loop (effective_section_number p) used l 0 false
      | _ => []
    if indices = [] then none
    else some { placeholder_id := p.id, content_block_indices := indices, transformation := "none" }

/-- The placeholder loop of `_create_mapping_auto`: accumulate mappings and
the used-index set in template order. -/
def map_loop (blocks : List ContentBlock) :
    List Placeholder → List ContentMapping → List Int → List ContentMapping × List Int
  | [], ms, used => (ms, used)
  | p :: ps, ms, used =>
    match auto_map_placeholder p blocks used with
    | some m => map_loop blocks ps (ms ++ [m]) (used ++ m.content_block_indices)
    | none => map_loop blocks ps ms used

/-- `"BODY" in m.placeholder_id.upper()`. -/
def has_body_id (pid : String) : Bool :=
  contains_sub "BODY".toList (upper_str pid).toList

/-- The tail of `_create_mapping_auto`: if some mapping's id contains `BODY`
(the first such mapping) and unmapped blocks remain, extend that mapping
with them and sort its indices, clearing the unmapped list.  Python's
`list.sort` on ints is modelled by `List.insertionSort (· ≤ ·)` (any
sorting function agrees on a linearly ordered carrier). -/
def merge_unmapped : List ContentMapping → List Int → List ContentMapping × List Int
  | [], unmapped => ([], unmapped)
  | m :: rest, unmapped =>
    if has_body_id m.placeholder_id then
      if unmapped = [] then (m :: rest, unmapped)
      else
        ({ m with content_block_indices :=
             List.insertionSort (· ≤ ·) (m.content_block_indices ++ unmapped) } :: rest, [])
    else
      let r := merge_unmapped rest unmapped
      (m :: r.1, r.2)

/-- `LLMContentMapper._create_mapping_auto`.  The confidence test
`0.7 if mappings else 0.0` reads the (merged) mappings list, whose
emptiness is unchanged by the merge. -/
def create_mapping_auto (template : ParsedTemplate) (content : DocumentStructure) :
    ContentMappingPlan :=
  let blocks := content.raw_blocks
  let total_blocks := blocks.length
  let r := map_loop blocks template.placeholders [] []
  let unmapped := (int_range total_blocks).filter (fun i => decide (i ∉ r.2))
  let merged := merge_unmapped r.1 unmapped
  { mappings := merged.1, unmapped_content := merged.2, warnings := [],
    confidence := if r.1 = [] then 0 else 7/10 }

/-! ### LLM-backed path (`_create_mapping_with_llm`, `_parse_llm_response`)

The transport collaborator (`VLLMClient.get_content_mapping`) either raises
an exception (transport error, timeout, or a non-dict JSON value that makes
`_parse_llm_response` raise inside the enclosing `try`) or returns a dict.
Per `VLLMClient._extract_json`, a response text that cannot be parsed as
JSON comes back as a dict whose `"error"` key is set.  The dict is modelled
with one `Option` field per key the code reads. -/

structure LLMRawMapping where
  placeholder_id : Option String := none
  content_block_indices : Option (List Int) := none
  transformation : Option String := none
deriving DecidableEq

structure LLMRespDict where
  error : Option String := none
  mappings : Option (List LLMRawMapping) := none
  unmapped_content : Option (List Int) := none
  warnings : Option (List String) := none
  confidence : Option ℚ := none
deriving DecidableEq

inductive TransportResult : Type where
  | raises (msg : String)
  | returns (resp : LLMRespDict)

/-- `LLMContentMapper._parse_llm_response`. -/
def parse_llm_response (resp : LLMRespDict) (template : ParsedTemplate)
    (content : DocumentStructure) : ContentMappingPlan :=
  match resp.error with
  | some e =>
    let plan := create_mapping_auto template content
    { plan with warnings := plan.warnings ++ ["LLM response parsing failed: " ++ e] }
  | none =>
    { mappings := (resp.mappings.getD []).map (fun m =>
        { placeholder_id := m.placeholder_id.getD ""
          content_block_indices := m.content_block_indices.getD []
          transformation := m.transformation.getD "none" })
      unmapped_content := resp.unmapped_content.getD []
      warnings := resp.warnings.getD []
      confidence := resp.confidence.getD (8/10) }

/-- `LLMContentMapper._create_mapping_with_llm`, parameterised by the outcome
of the transport call. -/
def create_mapping_with_llm (r : TransportResult) (template : ParsedTemplate)
    (content : DocumentStructure) : ContentMappingPlan :=
  match r with
  | TransportResult.raises msg =>
    let plan := create_mapping_auto template content
    { plan with warnings := plan.warnings ++ ["LLM mapping failed, using auto-mapping: " ++ msg] }
  | TransportResult.returns resp => parse_llm_response resp template content

/-- `LLMContentMapper.create_mapping_plan` (a client is constructed exactly
when `use_llm` is true). -/
def create_mapping_plan (use_llm : Bool) (r : TransportResult) (template : ParsedTemplate)
    (content : DocumentStructure) : ContentMappingPlan :=
  if template.placeholders = [] then
    { warnings := ["No placeholders found in template"], confidence := 0 }
  else if content.raw_blocks.isEmpty then
    { warnings := ["No content blocks found in markdown"], confidence := 0 }
  else if use_llm then create_mapping_with_llm r template content
  else create_mapping_auto template content

/-! ### Page classifier (`template_page_analyzer.TemplatePageAnalyzer`)

A template paragraph is modelled by the three observations the analyzer
makes of it: its style id (absent when `p.style` or `p.style.style_id` is
falsy), its text, and whether its XML carries a hard page-break run
(`_has_page_break`). -/

structure TemplatePara where
  style_id : Option String := none
  text : String := ""
  has_page_break : Bool := false
deriving DecidableEq

/-- Python `str.strip()` (whitespace strip from both ends). -/
def strip_ws (s : String) : String :=
  String.mk (((s.toList.dropWhile Char.isWhitespace).reverse.dropWhile
    Char.isWhitespace).reverse)

/-- The accumulator loop of `_split_by_page_breaks`. -/
def split_go : List TemplatePara → List TemplatePara → List (List TemplatePara)
  | [], current => if current.isEmpty then [] else [current]
  | p :: ps, current =>
    let cur := current ++ [p]
    if p.has_page_break then cur :: split_go ps [] else split_go ps cur

/-- `TemplatePageAnalyzer._split_by_page_breaks`. -/
def split_by_page_breaks (paras : List TemplatePara) : List (List TemplatePara) :=
  split_go paras []

/-- The four style-id sets discovered by `_discover_style_ids`. -/
structure StyleSets where
  cover_styles : List String := []
  toc_styles : List String := []
  section_styles : List String := []
  body_styles : List String := []

/-- `template_page_analyzer.PageInfo`.  The `content_preview` string of the
source (`str(texts)`, or the literal `"목차"` on the toc branch) is kept as
the underlying `texts` list, which no claim inspects. -/
structure PageInfo where
  page_number : Nat
  page_type : String
  styles_used : List String
  paragraph_count : Nat
  texts : List String
deriving DecidableEq

/-- `TemplatePageAnalyzer._analyze_page`.  `styles_used` is `list(style_set)`
in the source (arbitrary set order); `List.dedup` is the canonical choice,
and only membership in it is ever relevant. -/
def analyze_page (ss : StyleSets) (page_num : Nat) (paras : List TemplatePara) : PageInfo :=
  let styles := paras.filterMap (fun p => p.style_id)
  let texts := (paras.filter (fun p => decide (strip_ws p.text ≠ ""))).map
      (fun p => (strip_ws p.text).take 30)
  let style_set := styles.dedup
  let is_cover := page_num = 0 ∧
      ((style_set.any (fun s => decide (s ∈ ss.cover_styles))) = true ∨
       (paras.length ≤ 5 ∧ 0 < texts.length))
  if is_cover then
    ⟨page_num, "cover", style_set, paras.length, texts⟩
  else if style_set.any (fun s => decide (s ∈ ss.toc_styles)) then
    ⟨page_num, "toc", style_set, paras.length, texts⟩
  else if (style_set.any (fun s => decide (s ∈ ss.section_styles))) = true ∧
      (styles.filter (fun s => decide (s ∈ ss.body_styles))).length ≤ 2 ∧
      texts.length < 5 then
    ⟨page_num, "section", style_set, paras.length, texts⟩
  else
    ⟨page_num, "body", style_set, paras.length, texts⟩

/-! ### Style graph (`template_analyzer.StyleInfo` and inheritance) -/

/-- `template_analyzer.StyleInfo`.  Point sizes and spacings are exact
rationals (the source derives them from integer XML values by fixed
divisions). -/
structure StyleInfo where
  style_id : String
  name : String
  style_type : String := "paragraph"
  base_style : Option String := none
  font_name : Option String := none
  font_size_pt : Option ℚ := none
  bold : Option Bool := none
  italic : Option Bool := none
  color_rgb : Option String := none
  alignment : Option String := none
  space_before_pt : Option ℚ := none
  space_after_pt : Option ℚ := none
  line_spacing : Option ℚ := none
  left_indent_pt : Option ℚ := none
  outline_level : Option Nat := none
deriving DecidableEq

/-- The `structure.styles` dict: an insertion-ordered map from style id to
`StyleInfo`. -/
abbrev StyleTable := List (String × StyleInfo)

/-- `TemplateStructure.get_style_by_outline_level`: linear scan over
`styles.values()` returning the first style whose (resolved) outline level
equals the requested one. -/
def get_style_by_outline_level (styles : StyleTable) (level : Nat) : Option StyleInfo :=
  (styles.map Prod.snd).find? (fun s => s.outline_level == some level)

/-- The `get_inherited_value` walk of
`DocxTemplateAnalyzer._resolve_style_inheritance`, made total with a fuel
parameter: `none` means the fuel ran out (shown below never to happen for
fuel larger than the table size), `some v` that the walk finished with
Python result `v`.  A revisited style id ends the chain with `None`, as
does a dangling base-style id or a chain end. -/
def get_inherited_value {α : Type} (styles : StyleTable) (get : StyleInfo → Option α) :
    Nat → List String → String → Option (Option α)
  | 0, _, _ => none
  | fuel + 1, visited, style_id =>
    if style_id ∈ visited then some none
    else
      match styles.lookup style_id with
      | none => some none
      | some style =>
        match get style with
        | some v => some (some v)
        | none =>
          match style.base_style with
          | some b => get_inherited_value styles get fuel (style_id :: visited) b
          | none => some none

/-- One attribute of one style after `_resolve_style_inheritance`: kept if
already set, otherwise the inherited value walked from the base style (the
source mutates styles in place while iterating; resolving each style
against the original table agrees on the cyclic, all-unset tables the
termination claim is about). -/
def inherit_field {α : Type} (styles : StyleTable) (get : StyleInfo → Option α)
    (st : StyleInfo) : Option α :=
  match get st with
  | some v => some v
  | none =>
    match st.base_style with
    | some b => (get_inherited_value styles get (styles.length + 1) [] b).getD none
    | none => none

/-- `DocxTemplateAnalyzer._resolve_style_inheritance`: only the fixed
nine-attribute allowlist participates (`left_indent_pt` and
`outline_level` are deliberately not inherited). -/
def resolve_style_inheritance (styles : StyleTable) : StyleTable :=
  styles.map (fun e =>
    (e.1,
     { e.2 with
       font_name := inherit_field styles (fun s => s.font_name) e.2
       font_size_pt := inherit_field styles (fun s => s.font_size_pt) e.2
       bold := inherit_field styles (fun s => s.bold) e.2
       italic := inherit_field styles (fun s => s.italic) e.2
       color_rgb := inherit_field styles (fun s => s.color_rgb) e.2
       alignment := inherit_field styles (fun s => s.alignment) e.2
       space_before_pt := inherit_field styles (fun s => s.space_before_pt) e.2
       space_after_pt := inherit_field styles (fun s => s.space_after_pt) e.2
       line_spacing := inherit_field styles (fun s => s.line_spacing) e.2 }))

/-! ### Style role mapper (`style_mapper.StyleMapper`) -/

/-- `template_analyzer.TemplateStructure`, restricted to the style table
(the only part `StyleMapper` consults for role resolution). -/
structure TemplateStructure where
  styles : StyleTable

/-- `style_mapper.MappedStyle`. -/
structure MappedStyle where
  style_name : String
  style_id : String := ""
  font_name : Option String := none
  font_size_pt : Option ℚ := none
  bold : Option Bool := none
  italic : Option Bool := none
  color_rgb : Option String := none
  alignment : Option String := none
  apply_direct : Bool := false
deriving DecidableEq

/-- `StyleMapper._style_info_to_mapped`. -/
def style_info_to_mapped (si : StyleInfo) : MappedStyle :=
  { style_name := si.name, style_id := si.style_id, font_name := si.font_name,
    font_size_pt := si.font_size_pt, bold := si.bold, italic := si.italic,
    color_rgb := si.color_rgb, alignment := si.alignment, apply_direct := false }

/-- `StyleMapper._find_best_style`: per candidate, first a style-id lookup,
then a case-insensitive name scan; when no candidate is available, a
direct-apply default named after the first candidate. -/
def find_best_style (avail : StyleTable) (candidates : List String) : MappedStyle :=
  match candidates.findSome? (fun candidate =>
    match avail.lookup candidate with
    | some si => some (style_info_to_mapped si)
    | none =>
      match avail.find? (fun e => lower_str e.2.name == lower_str candidate) with
      | some e => some (style_info_to_mapped e.2)
      | none => none) with
  | some m => m
  | none => { style_name := candidates.headD "Normal", apply_direct := true }

/-- The name-fallback candidate list for `heading_{N}` keys. -/
def heading_fallback_names (md_level : Nat) : List String :=
  ["heading " ++ toString md_level, "Heading " ++ toString md_level,
   "Heading" ++ toString md_level]

/-- The `heading_N` branch of `StyleMapper._get_style` (the cache is empty
on first resolution; `md_level` is the `N` parsed from the key, so the
outline level queried is `N - 1`).  `available_styles` is the template's
style table when a template structure was provided, else empty. -/
def get_style_heading (tpl : Option TemplateStructure) (md_level : Nat) : MappedStyle :=
  let avail : StyleTable := match tpl with | some t => t.styles | none => []
  let from_outline : Option MappedStyle :=
    match tpl with
    | some t =>
      match get_style_by_outline_level t.styles (md_level - 1) with
      | some si => some (style_info_to_mapped si)
      | none => none
    | none => none
  match from_outline with
  | some s => s
  | none => find_best_style avail (heading_fallback_names md_level)

/-! ### Composer (`docx_composer.DocxComposer`)

A paragraph is the list of its runs' texts; `para.text` is their
concatenation.  `doc.add_paragraph` appends at the end of the document, so
`_insert_block_after` never touches the processed paragraph's runs; the
blocks handed to it are returned as data. -/

/-- The item lines of `_get_block_text` for a list block (the ordered prefix
is `len(items)+1`, i.e. the one-based position). -/
def list_item_lines (list_type : String) : Nat → List ContentBlock → List String
  | _, [] => []
  | k, c :: cs =>
    (if list_type = "bullet" then "- " ++ c.content
     else toString (k + 1) ++ ". " ++ c.content) :: list_item_lines list_type (k + 1) cs

/-- `DocxComposer._get_block_text`. -/
def get_block_text (b : ContentBlock) : String :=
  if b.block_type = "list" then
    String.intercalate "\n" (list_item_lines b.list_type 0 b.children)
  else if b.block_type = "table" then
    String.intercalate "\n" (b.rows.map (fun row => String.intercalate " | " row))
  else b.content

/-- Python `str.replace(old, new)` on character lists, with enough fuel
(every step consumes at least one character of `s`).  The `old = ""` case
is never exercised: replacement is only invoked with matched placeholder
tokens, which have at least five characters. -/
def replace_all_go (old new : List Char) : Nat → List Char → List Char
  | _, [] => []
  | 0, s => s
  | fuel + 1, c :: cs =>
    if old ≠ [] ∧ old.isPrefixOf (c :: cs) then
      new ++ replace_all_go old new fuel ((c :: cs).drop old.length)
    else c :: replace_all_go old new fuel cs

def py_replace (s old new : String) : String :=
  String.mk (replace_all_go old.toList new.toList s.toList.length s.toList)

/-- `DocxComposer._replace_text_in_paragraph`: run-level replacement (a run
is rewritten only when it contains the old text). -/
def replace_text_in_paragraph (runs : List String) (old_text new_text : String) :
    List String :=
  runs.map (fun r =>
    if contains_sub old_text.toList r.toList then py_replace r old_text new_text else r)

/-- One character of the regex class `[A-Z_]`. -/
def is_placeholder_char (c : Char) : Bool :=
  (decide ('A' ≤ c) && decide (c ≤ 'Z')) || c == '_'

/-- One attempt of the default placeholder regex
`\x7b\x7b([A-Z_]+(?:_\d+)?)\x7d\x7d` at the head of the character list,
with Python `re` backtracking semantics: the greedy `[A-Z_]+` takes the
maximal run; the optional `_\d+` can only start by giving back a trailing
underscore of that run, since `_` itself belongs to `[A-Z_]`.  Returns the
matched token (`group(0)`) and the remaining input. -/
def try_match : List Char → Option (List Char × List Char)
  | '\x7b' :: '\x7b' :: rest =>
    let r := rest.takeWhile is_placeholder_char
    let after := rest.dropWhile is_placeholder_char
    if r = [] then none
    else if after.take 2 = ['\x7d', '\x7d'] then
      some ('\x7b' :: '\x7b' :: (r ++ ['\x7d', '\x7d']), after.drop 2)
    else
      match after with
      | d :: _ =>
        if d.isDigit ∧ r.getLast? = some '_' ∧ 2 ≤ r.length then
          let ds := after.takeWhile Char.isDigit
          let after2 := after.dropWhile Char.isDigit
          if after2.take 2 = ['\x7d', '\x7d'] then
            some ('\x7b' :: '\x7b' :: (r ++ ds ++ ['\x7d', '\x7d']), after2.drop 2)
          else none
        else none
      | [] => none
  | _ => none

/-- `re.finditer` of the default pattern: leftmost non-overlapping matches,
resuming after each match.  Every step consumes at least one character, so
fuel equal to the input length suffices. -/
def find_placeholders_go : Nat → List Char → List String
  | 0, _ => []
  | _, [] => []
  | fuel + 1, c :: cs =>
    match try_match (c :: cs) with
    | some (tok, rest) => String.mk tok :: find_placeholders_go fuel rest
    | none => find_placeholders_go fuel cs

def find_placeholders (text : String) : List String :=
  find_placeholders_go text.toList.length text.toList

/-- Python list indexing `blocks[i]` (a negative index wraps once; out of
range raises, modelled as `none`). -/
def py_get_block (blocks : List ContentBlock) (i : Int) : Option ContentBlock :=
  if 0 ≤ i then blocks[i.toNat]?
  else if 0 ≤ i + blocks.length then blocks[(i + blocks.length).toNat]?
  else none

/-- The block-list comprehension of `_process_paragraph`:
`[content.raw_blocks[i] for i in mapping.content_block_indices if i < len(content.raw_blocks)]`.
`none` models a raised `IndexError`. -/
def resolve_blocks (blocks : List ContentBlock) (indices : List Int) :
    Option (List ContentBlock) :=
  (indices.filter (fun i => decide (i < (blocks.length : Int)))).mapM (py_get_block blocks)

/-- The body of the per-match loop of `DocxComposer._process_paragraph`:
no mapping means the match is skipped; an empty resolved block list deletes
the token; one block replaces it; several blocks replace it with the first
and hand the rest to `_insert_block_after` (returned as data). -/
def process_match (plan : ContentMappingPlan) (content : DocumentStructure)
    (runs : List String) (placeholder_id : String) :
    Option (List String × List ContentBlock) :=
  match get_mapping_for_placeholder plan placeholder_id with
  | none => some (runs, [])
  | some m =>
    match resolve_blocks content.raw_blocks m.content_block_indices with
    | none => none
    | some [] => some (replace_text_in_paragraph runs placeholder_id "", [])
    | some (b :: bs) =>
      some (replace_text_in_paragraph runs placeholder_id (get_block_text b), bs)

/-- `DocxComposer._process_paragraph`: matches are computed once from the
paragraph's original text, then handled in order against the evolving
runs.  The second component collects the blocks appended after the
paragraph. -/
def process_paragraph (plan : ContentMappingPlan) (content : DocumentStructure)
    (runs : List String) : Option (List String × List ContentBlock) :=
  (find_placeholders (String.join runs)).foldlM
    (fun acc tok =>
      match process_match plan content acc.1 tok with
      | none => none
      | some p => some (p.1, acc.2 ++ p.2))
    (runs, [])

/-- The per-match body of `DocxComposer._process_paragraph_simple`
(header/footer paragraphs): all resolved blocks are joined with `" | "`. -/
def process_match_simple (plan : ContentMappingPlan) (content : DocumentStructure)
    (runs : List String) (placeholder_id : String) : Option (List String) :=
  match get_mapping_for_placeholder plan placeholder_id with
  | none => some runs
  | some m =>
    match resolve_blocks content.raw_blocks m.content_block_indices with
    | none => none
    | some blocks =>
      let replacement :=
        if blocks.isEmpty then "" else String.intercalate " | " (blocks.map get_block_text)
      some (replace_text_in_paragraph runs placeholder_id replacement)

/-- `DocxComposer._process_paragraph_simple`. -/
def process_paragraph_simple (plan : ContentMappingPlan) (content : DocumentStructure)
    (runs : List String) : Option (List String) :=
  (find_placeholders (String.join runs)).foldlM
    (fun rs tok => process_match_simple plan content rs tok) runs

/-! ## Shared helper definitions and lemmas for the claims -/

/-- A placeholder as `TemplateParser._extract_from_paragraph` builds it from
a matched token: the raw token is the id and the type and section number
come from `parse_placeholder_id`. -/
def placeholder_of (pid : String) : Placeholder :=
  { id := pid, placeholder_type := (parse_placeholder_id pid).1,
    section_number := (parse_placeholder_id pid).2 }

lemma enum_from_map_fst {α : Type} (l : List α) :
    ∀ k : Int, (enum_from k l).map Prod.fst = int_range_from k l.length := by
  induction l with
  | nil => intro k; rfl
  | cons b bs ih => intro k; simp [enum_from, int_range_from, ih]

lemma mem_int_range_from {i : Int} : ∀ (n : Nat) (k : Int),
    i ∈ int_range_from k n ↔ k ≤ i ∧ i < k + n := by
  intro n
  induction n with
  | zero => intro k; simp [int_range_from]
  | succ m ih =>
    intro k
    simp only [int_range_from, List.mem_cons, ih]
    omega

lemma int_range_from_pairwise : ∀ (n : Nat) (k : Int),
    (int_range_from k n).Pairwise (· < ·) := by
  intro n
  induction n with
  | zero => intro k; simp [int_range_from]
  | succ m ih =>
    intro k
    refine List.Pairwise.cons ?_ (ih (k + 1))
    intro i hi
    have := (mem_int_range_from m (k + 1)).mp hi
    omega

lemma mem_int_range {i : Int} {n : Nat} : i ∈ int_range n ↔ 0 ≤ i ∧ i < n := by
  simpa using mem_int_range_from (i := i) n 0

lemma int_range_nodup (n : Nat) : (int_range n).Nodup :=
  (int_range_from_pairwise n 0).imp (fun h => ne_of_lt h)

/-- The body-merge step preserves emptiness of the mapping list. -/
lemma merge_unmapped_fst_eq_nil (ms : List ContentMapping) (u : List Int) :
    (merge_unmapped ms u).1 = [] ↔ ms = [] := by
  cases ms with
  | nil => simp [merge_unmapped]
  | cons m rest =>
    simp only [merge_unmapped]
    split_ifs <;> simp

/-- The confidence rule of the rule-based path: exactly 0.7 when at least
one mapping was produced, else 0.0. -/
lemma create_mapping_auto_confidence (template : ParsedTemplate)
    (content : DocumentStructure) :
    (create_mapping_auto template content).confidence =
      (if (create_mapping_auto template content).mappings = [] then (0 : ℚ) else 7/10) := by
  unfold create_mapping_auto
  simp only [merge_unmapped_fst_eq_nil]

/-! ## Claim C3 -/

/-- Scenario B template: placeholders `TITLE`, `SUBTITLE`, `BODY` in the
double-brace form, typed as the extractor types them. -/
def scenario_b_template : ParsedTemplate :=
  { placeholders := [placeholder_of "\x7b\x7bTITLE\x7d\x7d",
                     placeholder_of "\x7b\x7bSUBTITLE\x7d\x7d",
                     placeholder_of "\x7b\x7bBODY\x7d\x7d"] }

/-- Scenario B content: the three raw blocks of `# T\n## S\nbody text`. -/
def scenario_b_content : DocumentStructure :=
  { raw_blocks := [heading_block "T" 1, heading_block "S" 2, paragraph_block "body text"] }

/-- Claim C3: on markdown `# T / ## S / body text` with placeholders TITLE,
SUBTITLE, BODY, the rule-based mapping assigns block 0 to TITLE, block 1 to
SUBTITLE, block 2 to BODY with no unmapped content and confidence 0.7; in
general the rule-based confidence is 0.7 exactly when at least one mapping
is produced and 0.0 otherwise. -/
theorem C3_scenario_b_mapping_and_confidence :
    create_mapping_auto scenario_b_template scenario_b_content =
      { mappings := [{ placeholder_id := "\x7b\x7bTITLE\x7d\x7d",
                       content_block_indices := [0], transformation := "none" },
                     { placeholder_id := "\x7b\x7bSUBTITLE\x7d\x7d",
                       content_block_indices := [1], transformation := "none" },
                     { placeholder_id := "\x7b\x7bBODY\x7d\x7d",
                       content_block_indices := [2], transformation := "none" }],
        unmapped_content := [], warnings := [], confidence := 7/10 } ∧
    ∀ (template : ParsedTemplate) (content : DocumentStructure),
      (create_mapping_auto template content).confidence =
        (if (create_mapping_auto template content).mappings = [] then (0 : ℚ) else 7/10) :=
  ⟨rfl, create_mapping_auto_confidence⟩

/-! ## Claim C5 -/

/-- Claim C5 (code bug): type resolution is supposed to depend on the
token's identifier alone, uniformly across the four lexical forms, but
`parse_placeholder_id` strips only brace characters, so the identifier
`TITLE` resolves to `title` in the double-brace form and to `custom` in the
bracket, angle and underscore forms (and `SECTION_2` likewise loses its
section number outside the double-brace form), while identifier-alone
resolution yields `title` and `section 2`. -/
theorem C5_alternate_pattern_tokens_resolve_to_custom :
    parse_placeholder_id (wrap_token PatternKind.default "TITLE") =
      (PlaceholderType.title, none) ∧
    resolve_identifier "TITLE" = (PlaceholderType.title, none) ∧
    resolve_identifier "SECTION_2" = (PlaceholderType.sect, some 2) ∧
    parse_placeholder_id (wrap_token PatternKind.bracket "TITLE") =
      (PlaceholderType.custom, none) ∧
    parse_placeholder_id (wrap_token PatternKind.angle "TITLE") =
      (PlaceholderType.custom, none) ∧
    parse_placeholder_id (wrap_token PatternKind.underscore "TITLE") =
      (PlaceholderType.custom, none) ∧
    parse_placeholder_id (wrap_token PatternKind.bracket "SECTION_2") =
      (PlaceholderType.custom, none) := by
  decide

/-! ## Claim C2 -/

/-- A template with a single TITLE placeholder. -/
def c2_template : ParsedTemplate := { placeholders := [placeholder_of "\x7b\x7bTITLE\x7d\x7d"] }

/-- A template with a single custom placeholder (the rule-based path maps
nothing for it). -/
def c2_custom_template : ParsedTemplate :=
  { placeholders := [placeholder_of "\x7b\x7bFOO\x7d\x7d"] }

/-- One heading block of content. -/
def c2_content : DocumentStructure := { raw_blocks := [heading_block "T" 1] }

/-- Claim C2 counterexample: (i) a transport result that parses as a JSON
object but lacks the expected keys is passed through without any fallback —
the returned plan has no warnings and empty mappings with confidence 0.8,
and is not the rule-based plan (whose mappings are non-empty); (ii) on a
transport timeout the fallback plan's confidence is the rule-based one,
which is 0.0 (not 0.7) when the rule-based path produced no mapping. -/
theorem C2_counterexample_shape_miss_and_confidence :
    (create_mapping_plan true (TransportResult.returns {}) c2_template c2_content).warnings
      = [] ∧
    (create_mapping_plan true (TransportResult.returns {}) c2_template c2_content).mappings
      = [] ∧
    (create_mapping_auto c2_template c2_content).mappings ≠ [] ∧
    (create_mapping_plan true (TransportResult.returns {}) c2_template
      c2_content).confidence = 8/10 ∧
    (create_mapping_plan true (TransportResult.raises "Request timed out")
        c2_custom_template c2_content).warnings =
      ["LLM mapping failed, using auto-mapping: Request timed out"] ∧
    (create_mapping_plan true (TransportResult.raises "Request timed out")
        c2_custom_template c2_content).confidence = 0 ∧
    ((7 : ℚ)/10 ≠ 0 ∧ (8 : ℚ)/10 ≠ 7/10) :=
  ⟨rfl, rfl, by decide, rfl, rfl, rfl, by norm_num, by norm_num⟩

/-- Claim C2 (amended): when the transport raises (timeouts included), or
when the response text is not parseable as JSON (surfacing as a dict with
the `error` key set), `create_mapping_plan` returns exactly the rule-based
plan with one fallback warning appended, and its confidence is the
rule-based confidence — 0.7 precisely when the rule-based path produced at
least one mapping.  (A parseable JSON object lacking the expected keys is
passed through without fallback; see the counterexample.) -/
theorem C2_transport_failure_falls_back (template : ParsedTemplate)
    (content : DocumentStructure) (msg : String)
    (ht : template.placeholders ≠ []) (hc : content.raw_blocks ≠ []) :
    (create_mapping_plan true (TransportResult.raises msg) template content =
      { create_mapping_auto template content with
        warnings := (create_mapping_auto template content).warnings ++
          ["LLM mapping failed, using auto-mapping: " ++ msg] }) ∧
    (∀ (resp : LLMRespDict) (e : String), resp.error = some e →
      create_mapping_plan true (TransportResult.returns resp) template content =
        { create_mapping_auto template content with
          warnings := (create_mapping_auto template content).warnings ++
            ["LLM response parsing failed: " ++ e] }) ∧
    (create_mapping_plan true (TransportResult.raises msg) template content).confidence =
      (if (create_mapping_auto template content).mappings = [] then (0 : ℚ) else 7/10) := by
  have hemp : content.raw_blocks.isEmpty = false := by
    simpa [List.isEmpty_iff] using hc
  refine ⟨?_, ?_, ?_⟩
  · simp [create_mapping_plan, ht, hemp, create_mapping_with_llm]
  · intro resp e he
    simp [create_mapping_plan, ht, hemp, create_mapping_with_llm, parse_llm_response, he]
  · simp only [create_mapping_plan, ht, hemp, if_false, if_neg ht, Bool.false_eq_true,
      if_true, create_mapping_with_llm]
    simpa using create_mapping_auto_confidence template content

/-- Witness for claim C2's amended theorem at a concrete template, content
and timeout message. -/
theorem C2_transport_failure_falls_back_witness :
    create_mapping_plan true (TransportResult.raises "Request timed out")
        c2_template c2_content =
      { create_mapping_auto c2_template c2_content with
        warnings := (create_mapping_auto c2_template c2_content).warnings ++
          ["LLM mapping failed, using auto-mapping: " ++ "Request timed out"] } :=
  (C2_transport_failure_falls_back c2_template c2_content "Request timed out"
    (by decide) (List.cons_ne_nil _ _)).1

/-! ## Claim C9 -/

lemma lookup_some_mem_fst {sid : String} {v : StyleInfo} :
    ∀ (styles : StyleTable), styles.lookup sid = some v → sid ∈ styles.map Prod.fst := by
  intro styles
  induction styles with
  | nil => intro h; cases h
  | cons e rest ih =>
    intro h
    by_cases he : sid = e.1
    · simp [he]
    · refine List.mem_cons_of_mem _ (ih ?_)
      have hbe : (sid == e.1) = false := by simpa using he
      simpa [List.lookup, hbe] using h

/-- Fuel larger than the number of distinct style ids not yet visited is
enough for the inheritance walk to finish. -/
lemma get_inherited_value_ne_none {α : Type} (styles : StyleTable)
    (get : StyleInfo → Option α) :
    ∀ (fuel : Nat) (visited : List String) (sid : String),
      ((styles.map Prod.fst).toFinset \ visited.toFinset).card < fuel →
      get_inherited_value styles get fuel visited sid ≠ none := by
  intro fuel
  induction fuel with
  | zero => intro visited sid h; omega
  | succ f ih =>
    intro visited sid h
    unfold get_inherited_value
    by_cases hv : sid ∈ visited
    · simp [hv]
    · simp only [if_neg hv]
      cases hlk : styles.lookup sid with
      | none => simp
      | some style =>
        cases hget : get style with
        | some v => simp [hget]
        | none =>
          cases hbase : style.base_style with
          | none => simp [hget, hbase]
          | some b =>
            simp only [hget, hbase]
            refine ih (sid :: visited) b ?_
            have hmem : sid ∈ (styles.map Prod.fst).toFinset \ visited.toFinset := by
              simp only [Finset.mem_sdiff, List.mem_toFinset]
              exact ⟨lookup_some_mem_fst styles hlk, hv⟩
            have hsub : (styles.map Prod.fst).toFinset \ (sid :: visited).toFinset ⊆
                (styles.map Prod.fst).toFinset \ visited.toFinset := by
              intro x hx
              simp only [List.toFinset_cons, Finset.mem_sdiff, Finset.mem_insert,
                List.mem_toFinset] at hx ⊢
              exact ⟨hx.1, fun hxv => hx.2 (Or.inr hxv)⟩
            have hss : (styles.map Prod.fst).toFinset \ (sid :: visited).toFinset ⊂
                (styles.map Prod.fst).toFinset \ visited.toFinset := by
              refine Finset.ssubset_iff_of_subset hsub |>.mpr ⟨sid, hmem, ?_⟩
              simp [List.toFinset_cons]
            have := Finset.card_lt_card hss
            omega

/-- A two-element style table whose base-style links form a cycle and whose
inheritable attributes are all unset. -/
def cyclic_table : StyleTable :=
  [("A", { style_id := "A", name := "A", base_style := some "B" }),
   ("B", { style_id := "B", name := "B", base_style := some "A" })]

/-- Claim C9: the inheritance walk terminates on every style table — with
fuel one larger than the table size the fueled walk never runs out, for
cyclic base-style links included — and on a fully-unset cyclic table the
walk ends the chain at the revisit, leaving the attribute unset
(`resolve_style_inheritance` returns the table unchanged). -/
theorem C9_inheritance_resolution_terminates :
    (∀ (α : Type) (styles : StyleTable) (get : StyleInfo → Option α) (sid : String),
        get_inherited_value styles get (styles.length + 1) [] sid ≠ none) ∧
    get_inherited_value cyclic_table (fun s => s.font_name)
        (cyclic_table.length + 1) [] "A" = some none ∧
    resolve_style_inheritance cyclic_table = cyclic_table := by
  refine ⟨?_, by decide, by decide⟩
  intro α styles get sid
  refine get_inherited_value_ne_none styles get _ [] sid ?_
  have h1 : ((styles.map Prod.fst).toFinset \ ([] : List String).toFinset).card ≤
      (styles.map Prod.fst).length := by
    simpa using List.toFinset_card_le (styles.map Prod.fst)
  simp only [List.length_map] at h1
  omega

/-! ## Claim C6 -/

lemma find?_eq_some_of_unique {α : Type} (p : α → Bool) :
    ∀ (l : List α) (a : α), a ∈ l → p a = true → (∀ b ∈ l, p b = true → b = a) →
      l.find? p = some a := by
  intro l
  induction l with
  | nil => intro a ha; cases ha
  | cons x xs ih =>
    intro a ha hp huniq
    by_cases hx : p x = true
    · have hxa : x = a := huniq x (List.mem_cons_self x xs) hx
      rw [List.find?_cons_of_pos _ hx, hxa]
    · have hx' : ¬p x = true := hx
      rw [List.find?_cons_of_neg _ hx']
      have ha' : a ∈ xs := by
        rcases List.mem_cons.mp ha with h | h
        · exact absurd (h ▸ hp) hx'
        · exact h
      exact ih a ha' hp (fun b hb => huniq b (List.mem_cons_of_mem _ hb))

/-- Claim C6: if the style table contains exactly one style whose resolved
outline level is 0 — its id being `s1` — then resolving `heading_1` returns
that style (id `s1`), whatever other styles (e.g. one merely named
"Heading 1") the table holds; and the name-based fallback list is consulted
only when no style declares outline level 0. -/
theorem C6_heading1_resolves_by_outline_level
    (styles : StyleTable) (s1 : String) (info : StyleInfo)
    (hmem : info ∈ styles.map Prod.snd)
    (hid : info.style_id = s1)
    (hlvl : info.outline_level = some 0)
    (huniq : ∀ s ∈ styles.map Prod.snd, s.outline_level = some 0 → s = info) :
    (get_style_heading (some { styles := styles }) 1 = style_info_to_mapped info ∧
     (get_style_heading (some { styles := styles }) 1).style_id = s1 ∧
     (get_style_heading (some { styles := styles }) 1).apply_direct = false) ∧
    (∀ (styles2 : StyleTable),
       (∀ s ∈ styles2.map Prod.snd, s.outline_level ≠ some 0) →
       get_style_heading (some { styles := styles2 }) 1 =
         find_best_style styles2 (heading_fallback_names 1)) := by
  constructor
  · have hfind : get_style_by_outline_level styles 0 = some info := by
      unfold get_style_by_outline_level
      refine find?_eq_some_of_unique _ (styles.map Prod.snd) info hmem ?_ ?_
      · simp [hlvl]
      · intro b hb hpb
        exact huniq b hb (by simpa using hpb)
    have hres : get_style_heading (some { styles := styles }) 1 =
        style_info_to_mapped info := by
      unfold get_style_heading
      simp [hfind]
    exact ⟨hres, by rw [hres]; simpa [style_info_to_mapped] using hid,
      by rw [hres]; rfl⟩
  · intro styles2 hnone
    have hfind : get_style_by_outline_level styles2 0 = none := by
      unfold get_style_by_outline_level
      rw [List.find?_eq_none]
      intro s hs
      simpa using hnone s hs
    unfold get_style_heading
    simp [hfind]

/-- Style table for the C6 witness: a style named "Heading 1" appears
before the outline-level-0 style `S1`. -/
def c6_styles : StyleTable :=
  [("NamedH1", { style_id := "NamedH1", name := "Heading 1" }),
   ("S1", { style_id := "S1", name := "Main Head", outline_level := some 0 })]

/-- Witness for claim C6 on a concrete table: `heading_1` resolves to `S1`,
not to the style named "Heading 1". -/
theorem C6_heading1_resolves_by_outline_level_witness :
    (get_style_heading (some { styles := c6_styles }) 1).style_id = "S1" :=
  ((C6_heading1_resolves_by_outline_level c6_styles "S1"
      { style_id := "S1", name := "Main Head", outline_level := some 0 }
      (by decide) (by decide) (by decide) (by decide)).1).2.1

/-! ## Claim C7 -/

/-- The style ids of a page's paragraphs (those that have one). -/
def page_styles (paras : List TemplatePara) : List String :=
  paras.filterMap (fun p => p.style_id)

/-- The page's style-id set intersects the given discovered set. -/
def has_common_style (set : List String) (paras : List TemplatePara) : Prop :=
  ∃ s ∈ page_styles paras, s ∈ set

/-- Number of paragraphs with non-empty (stripped) text. -/
def nonempty_para_count (paras : List TemplatePara) : Nat :=
  (paras.filter (fun p => decide (strip_ws p.text ≠ ""))).length

/-- Number of paragraphs styled with a discovered body style (with
multiplicity). -/
def body_styled_count (ss : StyleSets) (paras : List TemplatePara) : Nat :=
  ((page_styles paras).filter (fun s => decide (s ∈ ss.body_styles))).length

instance has_common_style_dec (set : List String) (paras : List TemplatePara) :
    Decidable (has_common_style set paras) :=
  inferInstanceAs (Decidable (∃ s ∈ page_styles paras, s ∈ set))

/-- The classification precedence exactly as the claim states it: page 0 is
cover if its style-id set intersects the cover set or it has at most 5
paragraphs and at least one non-empty one; otherwise toc on a toc-set
intersection; otherwise section on a section-set intersection with at most
2 body-styled paragraphs and fewer than 5 non-empty paragraphs; otherwise
body. -/
def classify_page_spec (ss : StyleSets) (page_num : Nat) (paras : List TemplatePara) :
    String :=
  if page_num = 0 ∧ (has_common_style ss.cover_styles paras ∨
      (paras.length ≤ 5 ∧ 0 < nonempty_para_count paras)) then "cover"
  else if has_common_style ss.toc_styles paras then "toc"
  else if has_common_style ss.section_styles paras ∧
      body_styled_count ss paras ≤ 2 ∧ nonempty_para_count paras < 5 then "section"
  else "body"

lemma split_go_no_breaks : ∀ (paras current : List TemplatePara),
    (∀ p ∈ paras, p.has_page_break = false) →
    split_go paras current = (if (current ++ paras).isEmpty then [] else [current ++ paras]) := by
  intro paras
  induction paras with
  | nil => intro current h; simp [split_go]
  | cons p ps ih =>
    intro current h
    have hp : p.has_page_break = false := h p (List.mem_cons_self p ps)
    have hrest : ∀ q ∈ ps, q.has_page_break = false :=
      fun q hq => h q (List.mem_cons_of_mem _ hq)
    simp only [split_go, hp, Bool.false_eq_true, if_false]
    rw [ih (current ++ [p]) hrest]
    simp

/-- Claim C7 counterexample: a template with zero paragraphs contains no
hard page-break marker, yet `_split_by_page_breaks` yields zero pages, not
exactly one. -/
theorem C7_counterexample_empty_template_has_zero_pages :
    split_by_page_breaks ([] : List TemplatePara) = [] ∧
    (split_by_page_breaks ([] : List TemplatePara)).length ≠ 1 := by
  decide

/-- Claim C7 (amended): `_analyze_page` classifies exactly by the claimed
precedence (cover, then toc, then section, then body, with the stated
conditions), and a template with at least one paragraph and no hard
page-break markers splits into exactly one page (an empty template splits
into zero pages — see the counterexample). -/
theorem C7_page_classification_precedence (ss : StyleSets) (page_num : Nat)
    (paras : List TemplatePara) :
    (analyze_page ss page_num paras).page_type = classify_page_spec ss page_num paras ∧
    (∀ paras2 : List TemplatePara, paras2 ≠ [] →
      (∀ p ∈ paras2, p.has_page_break = false) →
      split_by_page_breaks paras2 = [paras2]) := by
  constructor
  · have hany : ∀ set : List String,
        ((paras.filterMap (fun p => p.style_id)).dedup.any
            (fun s => decide (s ∈ set)) = true) ↔ has_common_style set paras := by
      intro set
      simp [List.any_eq_true, has_common_style, page_styles, List.mem_dedup]
    have htexts : ((paras.filter (fun p => decide (strip_ws p.text ≠ ""))).map
        (fun p => (strip_ws p.text).take 30)).length = nonempty_para_count paras := by
      simp [nonempty_para_count]
    have hbody : ((paras.filterMap (fun p => p.style_id)).filter
        (fun s => decide (s ∈ ss.body_styles))).length = body_styled_count ss paras := by
      simp [body_styled_count, page_styles]
    unfold analyze_page classify_page_spec
    simp only [apply_ite PageInfo.page_type, htexts, hbody, hany]
  · intro paras2 h1 h2
    unfold split_by_page_breaks
    rw [split_go_no_breaks _ _ h2]
    simp [List.isEmpty_iff, h1]

/-- Concrete data for the C7 witness. -/
def c7_sets : StyleSets := { cover_styles := ["CoverId"], toc_styles := ["TocId"],
                             section_styles := ["SecId"], body_styles := ["BodyId"] }

def c7_para : TemplatePara := { style_id := some "Plain", text := "hello" }

/-- Witness for claim C7 at a concrete one-paragraph break-free template:
it forms exactly one page, and page 0 classifies per the precedence
(here: cover by the small-page heuristic). -/
theorem C7_page_classification_precedence_witness :
    ((analyze_page c7_sets 0 [c7_para]).page_type = classify_page_spec c7_sets 0 [c7_para]) ∧
    split_by_page_breaks [c7_para] = [[c7_para]] :=
  ⟨(C7_page_classification_precedence c7_sets 0 [c7_para]).1,
   (C7_page_classification_precedence c7_sets 0 [c7_para]).2 [c7_para]
     (List.cons_ne_nil _ _) (by decide)⟩

/-! ## Claim C8 -/

lemma subtitle_loop_eq_find (used : List Int) :
    ∀ l : List (Int × ContentBlock),
      subtitle_loop used l =
        (match l.find? (fun q => decide (q.1 ∉ used) &&
            (decide (q.2.block_type = "heading" ∧ q.2.level = 2) ||
             decide (q.2.block_type = "paragraph"))) with
         | some q => [q.1]
         | none => []) := by
  intro l
  induction l with
  | nil => rfl
  | cons q rest ih =>
    obtain ⟨i, b⟩ := q
    by_cases hu : i ∈ used
    · simp [subtitle_loop, List.find?_cons, hu, ih]
    · by_cases h2 : b.block_type = "heading" ∧ b.level = 2
      · simp [subtitle_loop, List.find?_cons, hu, h2]
      · by_cases hp : b.block_type = "paragraph"
        · simp [subtitle_loop, List.find?_cons, hu, h2, hp]
        · simp [subtitle_loop, List.find?_cons, hu, h2, hp, ih]

/-- Claim C8 (amended): the SUBTITLE rule assigns the first unused block
that is a level-2 heading **or** a plain paragraph, whichever occurs first
in block order (a paragraph occurring before every unused level-2 heading
wins); when no such block exists the placeholder gets no mapping. -/
theorem C8_subtitle_takes_first_h2_or_paragraph (p : Placeholder)
    (blocks : List ContentBlock) (used : List Int)
    (hp : p.placeholder_type = PlaceholderType.subtitle) :
    auto_map_placeholder p blocks used =
      (match (enum_from 0 blocks).find? (fun q => decide (q.1 ∉ used) &&
          (decide (q.2.block_type = "heading" ∧ q.2.level = 2) ||
           decide (q.2.block_type = "paragraph"))) with
       | some q => some { placeholder_id := p.id, content_block_indices := [q.1],
                          transformation := "none" }
       | none => none) := by
  unfold auto_map_placeholder
  rw [hp]
  rw [if_neg (by decide : ¬(PlaceholderType.subtitle = PlaceholderType.toc))]
  dsimp only
  rw [subtitle_loop_eq_find]
  cases hfind : (enum_from 0 blocks).find? (fun q => decide (q.1 ∉ used) &&
      (decide (q.2.block_type = "heading" ∧ q.2.level = 2) ||
       decide (q.2.block_type = "paragraph"))) with
  | none => simp
  | some q => simp

/-- Template and content for the C8 counterexample. -/
def c8_template : ParsedTemplate :=
  { placeholders := [placeholder_of "\x7b\x7bSUBTITLE\x7d\x7d"] }

def c8_content : DocumentStructure :=
  { raw_blocks := [paragraph_block "p", heading_block "s" 2] }

/-- Claim C8 counterexample: with blocks `[paragraph, level-2 heading]` and
nothing used, the engine assigns the paragraph (index 0) to SUBTITLE even
though an unused level-2 heading exists at index 1 — the heading is not
preferred. -/
theorem C8_counterexample_paragraph_beats_later_h2 :
    (create_mapping_auto c8_template c8_content).mappings =
      [{ placeholder_id := "\x7b\x7bSUBTITLE\x7d\x7d", content_block_indices := [0],
         transformation := "none" }] ∧
    ((c8_content.raw_blocks[1]?).map (fun b => (b.block_type, b.level))) =
      some ("heading", 2) := by
  exact ⟨rfl, rfl⟩

/-- Witness for claim C8's amended theorem at the counterexample data. -/
theorem C8_subtitle_takes_first_h2_or_paragraph_witness :
    auto_map_placeholder (placeholder_of "\x7b\x7bSUBTITLE\x7d\x7d")
        [paragraph_block "p", heading_block "s" 2] [] =
      some { placeholder_id := "\x7b\x7bSUBTITLE\x7d\x7d", content_block_indices := [0],
             transformation := "none" } :=
  (C8_subtitle_takes_first_h2_or_paragraph (placeholder_of "\x7b\x7bSUBTITLE\x7d\x7d")
      [paragraph_block "p", heading_block "s" 2] [] (by decide)).trans rfl

/-! ## Claim C10 -/

/-- Claim C10 (amended): a matched placeholder token with no mapping in the
plan is skipped, so a paragraph (body or header/footer) none of whose
matched tokens has a mapping is left entirely unchanged — the literal
tokens remain; and when the plan does map a token to an empty resolved
block list, the token's text is replaced by the empty string.  (The token's
text can also become empty when a mapped block renders to empty text — see
the counterexample — so the replacement-by-empty is not exclusive to empty
resolved lists.) -/
theorem C10_composer_frame_effect :
    (∀ (plan : ContentMappingPlan) (content : DocumentStructure) (runs : List String),
      (∀ tok ∈ find_placeholders (String.join runs),
          get_mapping_for_placeholder plan tok = none) →
      process_paragraph plan content runs = some (runs, []) ∧
      process_paragraph_simple plan content runs = some runs) ∧
    (∀ (plan : ContentMappingPlan) (content : DocumentStructure) (runs : List String)
        (pid : String) (m : ContentMapping),
      find_placeholders (String.join runs) = [pid] →
      get_mapping_for_placeholder plan pid = some m →
      resolve_blocks content.raw_blocks m.content_block_indices = some [] →
      process_paragraph plan content runs =
        some (replace_text_in_paragraph runs pid "", [])) := by
  constructor
  · intro plan content runs h
    constructor
    · unfold process_paragraph
      generalize hL : find_placeholders (String.join runs) = toks at h
      clear hL
      induction toks with
      | nil => rfl
      | cons t ts ih =>
        have ht : get_mapping_for_placeholder plan t = none :=
          h t (List.mem_cons_self t ts)
        have hrest := fun tok htok => h tok (List.mem_cons_of_mem _ htok)
        simpa [List.foldlM, process_match, ht] using ih hrest
    · unfold process_paragraph_simple
      generalize hL : find_placeholders (String.join runs) = toks at h
      clear hL
      induction toks with
      | nil => rfl
      | cons t ts ih =>
        have ht : get_mapping_for_placeholder plan t = none :=
          h t (List.mem_cons_self t ts)
        have hrest := fun tok htok => h tok (List.mem_cons_of_mem _ htok)
        simpa [List.foldlM, process_match_simple, ht] using ih hrest
  · intro plan content runs pid m hfind hm hres
    unfold process_paragraph
    rw [hfind]
    simp [List.foldlM, process_match, hm, hres]

/-- Plan and content for the C10 counterexample: the token is mapped to one
block whose rendered text is empty. -/
def c10_plan : ContentMappingPlan :=
  { mappings := [{ placeholder_id := "\x7b\x7bBODY\x7d\x7d", content_block_indices := [0],
                   transformation := "none" }] }

def c10_content : DocumentStructure := { raw_blocks := [paragraph_block ""] }

/-- Claim C10 counterexample: the paragraph's token text is deleted
(replaced by the empty string) although the mapping's resolved block list
is non-empty (it resolves to exactly one block, whose text is empty) — so
deletion is not exclusive to mappings with an empty resolved block list. -/
theorem C10_counterexample_empty_rendered_block :
    (process_paragraph c10_plan c10_content ["\x7b\x7bBODY\x7d\x7d"]).map
        (fun p => (p.1, p.2.length)) = some ([""], 0) ∧
    (resolve_blocks c10_content.raw_blocks [0]).map List.length = some 1 ∧
    get_mapping_for_placeholder c10_plan "\x7b\x7bBODY\x7d\x7d" =
      some { placeholder_id := "\x7b\x7bBODY\x7d\x7d", content_block_indices := [0],
             transformation := "none" } := by
  exact ⟨rfl, rfl, rfl⟩

/-- A plan with no mapping at all, and one whose only mapping resolves to an
empty block list (index 5 is filtered out by the bounds check). -/
def c10_nomap_plan : ContentMappingPlan := { mappings := [] }

def c10_empty_plan : ContentMappingPlan :=
  { mappings := [{ placeholder_id := "\x7b\x7bBODY\x7d\x7d", content_block_indices := [5],
                   transformation := "none" }] }

/-- Witness for claim C10's amended theorem: an unmapped token survives
unchanged, and a token mapped to an empty resolved list is deleted. -/
theorem C10_composer_frame_effect_witness :
    (process_paragraph c10_nomap_plan c10_content ["\x7b\x7bBODY\x7d\x7d"] =
        some (["\x7b\x7bBODY\x7d\x7d"], []) ∧
     process_paragraph_simple c10_nomap_plan c10_content ["\x7b\x7bBODY\x7d\x7d"] =
        some ["\x7b\x7bBODY\x7d\x7d"]) ∧
    process_paragraph c10_empty_plan c10_content ["\x7b\x7bBODY\x7d\x7d"] =
      some (replace_text_in_paragraph ["\x7b\x7bBODY\x7d\x7d"] "\x7b\x7bBODY\x7d\x7d" "", []) :=
  ⟨C10_composer_frame_effect.1 c10_nomap_plan c10_content ["\x7b\x7bBODY\x7d\x7d"]
      (by decide),
   C10_composer_frame_effect.2 c10_empty_plan c10_content ["\x7b\x7bBODY\x7d\x7d"]
      "\x7b\x7bBODY\x7d\x7d"
      { placeholder_id := "\x7b\x7bBODY\x7d\x7d", content_block_indices := [5],
        transformation := "none" }
      (by decide) rfl rfl⟩

/-! ## Claim C4 -/

/-- A level-2 heading block. -/
def is_h2 (b : ContentBlock) : Bool := decide (b.block_type = "heading" ∧ b.level = 2)

/-- Number of enumerated entries at positions `≤ i` that are unused level-2
headings. -/
def h2_count_through (used : List Int) (l : List (Int × ContentBlock)) (i : Int) : Nat :=
  (l.filter (fun q => decide (q.1 ≤ i) && decide (q.1 ∉ used) && is_h2 q.2)).length

/-- Number of unused level-2 headings among blocks `0..i` (level-2 headings
are counted among unused blocks only, which is how the engine counts). -/
def unused_h2_count (blocks : List ContentBlock) (used : List Int) (i : Int) : Nat :=
  h2_count_through used (enum_from 0 blocks) i

/-- The declarative description of the SECTION(n) assignment: the unused
indices whose unused-level-2-heading count through them equals `n` — i.e.
the n-th unused level-2 heading itself and the unused blocks after it up to
(excluding) the (n+1)-th unused level-2 heading. -/
def section_assignment (n : Nat) (blocks : List ContentBlock) (used : List Int) :
    List Int :=
  (int_range blocks.length).filter
    (fun i => decide (i ∉ used) && decide (unused_h2_count blocks used i = n))

lemma enum_from_fst_ge {α : Type} : ∀ (l : List α) (k : Int) (q : Int × α),
    q ∈ enum_from k l → k ≤ q.1 := by
  intro l
  induction l with
  | nil => intro k q hq; cases hq
  | cons b bs ih =>
    intro k q hq
    rcases List.mem_cons.mp hq with h | h
    · subst h; simp
    · have := ih (k + 1) q h; omega

lemma enum_from_pairwise {α : Type} : ∀ (l : List α) (k : Int),
    (enum_from k l).Pairwise (fun a b => a.1 < b.1) := by
  intro l
  induction l with
  | nil => intro k; simp [enum_from]
  | cons b bs ih =>
    intro k
    refine List.Pairwise.cons ?_ (ih (k + 1))
    intro q hq
    have := enum_from_fst_ge bs (k + 1) q hq
    show k < q.1
    omega

lemma h2ct_cons (used : List Int) (i : Int) (b : ContentBlock)
    (rest : List (Int × ContentBlock)) (j : Int) :
    h2_count_through used ((i, b) :: rest) j =
      (if (decide (i ≤ j) && decide (i ∉ used) && is_h2 b) = true then 1 else 0) +
        h2_count_through used rest j := by
  simp only [h2_count_through, List.filter_cons]
  dsimp only
  split_ifs <;> simp_all [Nat.add_comm]

lemma h2ct_eq_zero (used : List Int) (rest : List (Int × ContentBlock)) (i : Int)
    (h : ∀ q ∈ rest, i < q.1) : h2_count_through used rest i = 0 := by
  unfold h2_count_through
  rw [List.length_eq_zero, List.filter_eq_nil_iff]
  intro q hq
  have hlt := h q hq
  simp only [Bool.and_eq_true, decide_eq_true_eq, not_and]
  intro hc
  omega

lemma map_fst_filter_fst {α : Type} (g : Int → Bool) :
    ∀ l : List (Int × α),
      (l.filter (fun q => g q.1)).map Prod.fst = (l.map Prod.fst).filter g := by
  intro l
  induction l with
  | nil => rfl
  | cons q rest ih =>
    cases hq : g q.1 <;> simp [List.filter_cons, hq, ih]

/-- The SECTION loop computes exactly the count-based filter: starting from
counter `cur` (with the `in_section` flag equal to `cur = n`), it emits the
unused entries whose running unused-H2 count hits `n`. -/
lemma section_loop_eq_filter (n : Nat) (used : List Int) :
    ∀ l : List (Int × ContentBlock), l.Pairwise (fun a b => a.1 < b.1) →
    ∀ cur : Nat,
      section_loop n used l cur (decide (cur = n)) =
        (l.filter (fun q => decide (q.1 ∉ used) &&
            decide (cur + h2_count_through used l q.1 = n))).map Prod.fst := by
  intro l
  induction l with
  | nil => intro _ cur; rfl
  | cons hd rest ih =>
    obtain ⟨i, b⟩ := hd
    intro hpw cur
    have hpw_rest : rest.Pairwise (fun a b => a.1 < b.1) := (List.pairwise_cons.mp hpw).2
    have hlt : ∀ q ∈ rest, i < q.1 := (List.pairwise_cons.mp hpw).1
    have hzero : h2_count_through used rest i = 0 := h2ct_eq_zero used rest i hlt
    by_cases hu : i ∈ used
    · -- head used: skipped by the loop, filtered out, and not counted
      have hL : section_loop n used ((i, b) :: rest) cur (decide (cur = n)) =
          section_loop n used rest cur (decide (cur = n)) := by
        simp [section_loop, hu]
      rw [hL, ih hpw_rest cur]
      rw [List.filter_cons, if_neg (by simp [hu]), List.filter_congr]
      intro q hq
      rw [h2ct_cons]
      simp [hu]
    · by_cases h2 : b.block_type = "heading" ∧ b.level = 2
      · -- head is an unused level-2 heading: counter increments
        have hself : h2_count_through used ((i, b) :: rest) i = 1 := by
          rw [h2ct_cons, hzero]
          simp [hu, is_h2, h2]
        have hshift : ∀ q ∈ rest,
            h2_count_through used ((i, b) :: rest) q.1 =
              1 + h2_count_through used rest q.1 := by
          intro q hq
          rw [h2ct_cons]
          have hiq := hlt q hq
          have hle : i ≤ q.1 := by omega
          simp [hu, is_h2, h2, hle]
        have hcongr : List.filter (fun q => decide (q.1 ∉ used) &&
              decide (cur + h2_count_through used ((i, b) :: rest) q.1 = n)) rest =
            List.filter (fun q => decide (q.1 ∉ used) &&
              decide ((cur + 1) + h2_count_through used rest q.1 = n)) rest := by
          apply List.filter_congr
          intro q hq
          rw [hshift q hq]
          congr 1
          exact decide_eq_decide.mpr (by omega)
        by_cases hcn : cur + 1 = n
        · have hL : section_loop n used ((i, b) :: rest) cur (decide (cur = n)) =
              i :: section_loop n used rest (cur + 1) true := by
            simp [section_loop, hu, h2, hcn]
          have htrue : (true : Bool) = decide (cur + 1 = n) := by simp [hcn]
          rw [hL, htrue, ih hpw_rest (cur + 1)]
          rw [List.filter_cons, if_pos (by simp [hu, hself, hcn]), List.map_cons, hcongr]
        · by_cases hgt : n < cur + 1
          · have hL : section_loop n used ((i, b) :: rest) cur (decide (cur = n)) = [] := by
              simp [section_loop, hu, h2, hcn, hgt]
            rw [hL, List.filter_cons, if_neg (by simp [hself, hcn]),
              List.filter_eq_nil_iff.mpr, List.map_nil]
            intro q hq
            rw [hshift q hq]
            simp only [Bool.and_eq_true, decide_eq_true_eq, not_and]
            intro _
            omega
          · have hL : section_loop n used ((i, b) :: rest) cur (decide (cur = n)) =
                section_loop n used rest (cur + 1) false := by
              simp [section_loop, hu, h2, hcn, hgt]
            have hfalse : (false : Bool) = decide (cur + 1 = n) := by simp [hcn]
            rw [hL, hfalse, ih hpw_rest (cur + 1)]
            rw [List.filter_cons, if_neg (by simp [hself, hcn]), hcongr]
      · -- head unused but not a level-2 heading: emitted iff the flag is up
        have hself : h2_count_through used ((i, b) :: rest) i = 0 := by
          rw [h2ct_cons, hzero]
          simp [is_h2, h2]
        have hshift : ∀ q ∈ rest,
            h2_count_through used ((i, b) :: rest) q.1 =
              h2_count_through used rest q.1 := by
          intro q hq
          rw [h2ct_cons]
          simp [is_h2, h2]
        have hcongr : List.filter (fun q => decide (q.1 ∉ used) &&
              decide (cur + h2_count_through used ((i, b) :: rest) q.1 = n)) rest =
            List.filter (fun q => decide (q.1 ∉ used) &&
              decide (cur + h2_count_through used rest q.1 = n)) rest := by
          apply List.filter_congr
          intro q hq
          rw [hshift q hq]
        by_cases hc : cur = n
        · have hL : section_loop n used ((i, b) :: rest) cur (decide (cur = n)) =
              i :: section_loop n used rest cur (decide (cur = n)) := by
            simp [section_loop, hu, h2, hc]
          rw [hL, ih hpw_rest cur]
          rw [List.filter_cons, if_pos (by simp [hu, hself, hc]), List.map_cons, hcongr]
        · have hL : section_loop n used ((i, b) :: rest) cur (decide (cur = n)) =
              section_loop n used rest cur (decide (cur = n)) := by
            simp [section_loop, hu, h2, hc]
          rw [hL, ih hpw_rest cur]
          rw [List.filter_cons, if_neg (by simp [hself, hc]), hcongr]

lemma effective_section_number_pos (p : Placeholder) :
    1 ≤ effective_section_number p := by
  unfold effective_section_number
  cases hs : p.section_number with
  | none => simp
  | some k => cases k <;> simp

/-- Claim C4 (amended): a SECTION(n) placeholder (with `n` the effective
section number, `section_number or 1`) is assigned exactly the unused
blocks whose count of unused level-2 headings up to and including them
equals `n`: that is, the n-th unused level-2 heading **itself** together
with the unused blocks following it up to (excluding) the (n+1)-th unused
level-2 heading; the opening boundary heading is included, not excluded,
and headings already used are not counted as delimiters. -/
theorem C4_section_assigns_count_filter (p : Placeholder)
    (blocks : List ContentBlock) (used : List Int)
    (hp : p.placeholder_type = PlaceholderType.sect) :
    auto_map_placeholder p blocks used =
      (if section_assignment (effective_section_number p) blocks used = [] then none
       else some { placeholder_id := p.id,
                   content_block_indices :=
                     section_assignment (effective_section_number p) blocks used,
                   transformation := "none" }) := by
  have hn := effective_section_number_pos p
  have h0 : (false : Bool) = decide (0 = effective_section_number p) := by
    have hne : ¬(0 = effective_section_number p) := by omega
    simp [hne]
  have hkey : section_loop (effective_section_number p) used (enum_from 0 blocks) 0 false =
      section_assignment (effective_section_number p) blocks used := by
    rw [h0, section_loop_eq_filter _ used _ (enum_from_pairwise blocks 0) 0]
    simp only [Nat.zero_add]
    rw [map_fst_filter_fst
      (fun j => decide (j ∉ used) &&
        decide (h2_count_through used (enum_from 0 blocks) j = effective_section_number p))]
    rw [enum_from_map_fst]
    rfl
  unfold auto_map_placeholder
  rw [hp]
  rw [if_neg (by decide : ¬(PlaceholderType.sect = PlaceholderType.toc))]
  dsimp only
  rw [hkey]

/-- Template and content for the C4 counterexample. -/
def c4_template : ParsedTemplate :=
  { placeholders := [placeholder_of "\x7b\x7bSECTION_1\x7d\x7d"] }

def c4_content : DocumentStructure :=
  { raw_blocks := [heading_block "A" 2, paragraph_block "x", heading_block "B" 2] }

/-- Claim C4 counterexample: with blocks `[H2 "A", paragraph, H2 "B"]` the
engine assigns indices `[0, 1]` to SECTION(1) — block 0, the 1st level-2
heading (the opening boundary), is among the assigned indices, which the
claim says must be excluded. -/
theorem C4_counterexample_opening_h2_assigned :
    (create_mapping_auto c4_template c4_content).mappings =
      [{ placeholder_id := "\x7b\x7bSECTION_1\x7d\x7d", content_block_indices := [0, 1],
         transformation := "none" }] ∧
    ((c4_content.raw_blocks[0]?).map is_h2) = some true ∧
    unused_h2_count c4_content.raw_blocks [] 0 = 1 := by
  exact ⟨rfl, rfl, rfl⟩

/-- Witness for claim C4's amended theorem at the counterexample data. -/
theorem C4_section_assigns_count_filter_witness :
    auto_map_placeholder (placeholder_of "\x7b\x7bSECTION_1\x7d\x7d")
        [heading_block "A" 2, paragraph_block "x", heading_block "B" 2] [] =
      some { placeholder_id := "\x7b\x7bSECTION_1\x7d\x7d", content_block_indices := [0, 1],
             transformation := "none" } :=
  (C4_section_assigns_count_filter (placeholder_of "\x7b\x7bSECTION_1\x7d\x7d")
      [heading_block "A" 2, paragraph_block "x", heading_block "B" 2] []
      (by decide)).trans rfl

/-! ## Claim C1 -/

lemma title_loop_sublist (used : List Int) :
    ∀ l : List (Int × ContentBlock), List.Sublist (title_loop used l) (l.map Prod.fst) := by
  intro l
  induction l with
  | nil => simp [title_loop]
  | cons q rest ih =>
    obtain ⟨i, b⟩ := q
    simp only [title_loop, List.map_cons]
    split_ifs with h1 h2
    · exact ih.cons i
    · exact (List.nil_sublist _).cons₂ i
    · exact ih.cons i

lemma subtitle_loop_sublist (used : List Int) :
    ∀ l : List (Int × ContentBlock), List.Sublist (subtitle_loop used l) (l.map Prod.fst) := by
  intro l
  induction l with
  | nil => simp [subtitle_loop]
  | cons q rest ih =>
    obtain ⟨i, b⟩ := q
    simp only [subtitle_loop, List.map_cons]
    split_ifs with h1 h2 h3
    · exact ih.cons i
    · exact (List.nil_sublist _).cons₂ i
    · exact (List.nil_sublist _).cons₂ i
    · exact ih.cons i

lemma body_loop_sublist (used : List Int) :
    ∀ (l : List (Int × ContentBlock)) (sk : Bool), List.Sublist (body_loop used l sk) (l.map Prod.fst) := by
  intro l
  induction l with
  | nil => intro sk; simp [body_loop]
  | cons q rest ih =>
    intro sk
    obtain ⟨i, b⟩ := q
    simp only [body_loop, List.map_cons]
    split_ifs with h1 h2
    · exact (ih sk).cons i
    · exact (ih false).cons i
    · exact (ih sk).cons₂ i

lemma section_loop_sublist (n : Nat) (used : List Int) :
    ∀ (l : List (Int × ContentBlock)) (cur : Nat) (insec : Bool),
      List.Sublist (section_loop n used l cur insec) (l.map Prod.fst) := by
  intro l
  induction l with
  | nil => intro cur insec; simp [section_loop]
  | cons q rest ih =>
    intro cur insec
    obtain ⟨i, b⟩ := q
    simp only [section_loop, List.map_cons]
    split_ifs with h1 h2 h3 h4 h5
    · exact ih cur insec |>.cons i
    · exact (ih (cur + 1) true).cons₂ i
    · exact List.nil_sublist _
    · exact (ih (cur + 1) false).cons i
    · exact (ih cur insec).cons₂ i
    · exact (ih cur insec).cons i

lemma title_loop_not_used (used : List Int) :
    ∀ l : List (Int × ContentBlock), ∀ j ∈ title_loop used l, j ∉ used := by
  intro l
  induction l with
  | nil => simp [title_loop]
  | cons q rest ih =>
    obtain ⟨i, b⟩ := q
    simp only [title_loop]
    split_ifs with h1 h2
    · exact ih
    · intro j hj
      rcases List.mem_singleton.mp hj with rfl
      exact h1
    · exact ih

lemma subtitle_loop_not_used (used : List Int) :
    ∀ l : List (Int × ContentBlock), ∀ j ∈ subtitle_loop used l, j ∉ used := by
  intro l
  induction l with
  | nil => simp [subtitle_loop]
  | cons q rest ih =>
    obtain ⟨i, b⟩ := q
    simp only [subtitle_loop]
    split_ifs with h1 h2 h3
    · exact ih
    · intro j hj
      rcases List.mem_singleton.mp hj with rfl
      exact h1
    · intro j hj
      rcases List.mem_singleton.mp hj with rfl
      exact h1
    · exact ih

lemma body_loop_not_used (used : List Int) :
    ∀ (l : List (Int × ContentBlock)) (sk : Bool), ∀ j ∈ body_loop used l sk, j ∉ used := by
  intro l
  induction l with
  | nil => simp [body_loop]
  | cons q rest ih =>
    intro sk
    obtain ⟨i, b⟩ := q
    simp only [body_loop]
    split_ifs with h1 h2
    · exact ih sk
    · exact ih false
    · intro j hj
      rcases List.mem_cons.mp hj with rfl | hj
      · exact h1
      · exact ih sk j hj

lemma section_loop_not_used (n : Nat) (used : List Int) :
    ∀ (l : List (Int × ContentBlock)) (cur : Nat) (insec : Bool),
      ∀ j ∈ section_loop n used l cur insec, j ∉ used := by
  intro l
  induction l with
  | nil => simp [section_loop]
  | cons q rest ih =>
    intro cur insec
    obtain ⟨i, b⟩ := q
    simp only [section_loop]
    split_ifs with h1 h2 h3 h4 h5
    · exact ih cur insec
    · intro j hj
      rcases List.mem_cons.mp hj with rfl | hj
      · exact h1
      · exact ih (cur + 1) true j hj
    · simp
    · exact ih (cur + 1) false
    · intro j hj
      rcases List.mem_cons.mp hj with rfl | hj
      · exact h1
      · exact ih cur insec j hj
    · exact ih cur insec

/-- Every mapping produced by `_auto_map_placeholder` has strictly
increasing (hence duplicate-free) indices, all in range and all unused. -/
lemma auto_map_placeholder_spec (p : Placeholder) (blocks : List ContentBlock)
    (used : List Int) (m : ContentMapping)
    (h : auto_map_placeholder p blocks used = some m) :
    m.content_block_indices.Pairwise (· < ·) ∧
    ∀ j ∈ m.content_block_indices, j ∉ used ∧ 0 ≤ j ∧ j < (blocks.length : Int) := by
  have hpair0 : ((enum_from 0 blocks).map Prod.fst).Pairwise (· < ·) := by
    rw [enum_from_map_fst]
    exact int_range_from_pairwise _ 0
  have hmemrange : ∀ j, j ∈ (enum_from 0 blocks).map Prod.fst →
      0 ≤ j ∧ j < (blocks.length : Int) := by
    intro j hj
    rw [enum_from_map_fst] at hj
    have := (mem_int_range_from _ _).mp hj
    omega
  unfold auto_map_placeholder at h
  by_cases htoc : p.placeholder_type = PlaceholderType.toc
  · rw [if_pos htoc] at h
    cases h
    simp
  · rw [if_neg htoc] at h
    dsimp only at h
    have step : ∀ idx : List Int,
        List.Sublist idx ((enum_from 0 blocks).map Prod.fst) →
        (∀ j ∈ idx, j ∉ used) →
        (if idx = [] then none
         else some { placeholder_id := p.id, content_block_indices := idx,
                     transformation := "none" }) = some m →
        m.content_block_indices.Pairwise (· < ·) ∧
        ∀ j ∈ m.content_block_indices, j ∉ used ∧ 0 ≤ j ∧ j < (blocks.length : Int) := by
      intro idx hsub hnu hif
      rcases eq_or_ne idx [] with hemp | hemp
      · rw [if_pos hemp] at hif
        cases hif
      · rw [if_neg hemp] at hif
        injection hif with hinj
        subst hinj
        refine ⟨hpair0.sublist hsub, ?_⟩
        intro j hj
        exact ⟨hnu j hj, hmemrange j (hsub.subset hj)⟩
    cases hpt : p.placeholder_type with
    | title =>
      rw [hpt] at h
      exact step _ (title_loop_sublist used _) (title_loop_not_used used _) h
    | subtitle =>
      rw [hpt] at h
      exact step _ (subtitle_loop_sublist used _) (subtitle_loop_not_used used _) h
    | body =>
      rw [hpt] at h
      exact step _ (body_loop_sublist used _ true) (body_loop_not_used used _ true) h
    | sect =>
      rw [hpt] at h
      exact step _ (section_loop_sublist _ used _ 0 false)
        (section_loop_not_used _ used _ 0 false) h
    | toc => exact absurd hpt htoc
    | date => rw [hpt] at h; cases h
    | author => rw [hpt] at h; cases h
    | image => rw [hpt] at h; cases h
    | custom => rw [hpt] at h; cases h

/-- Invariant of the placeholder loop: the used-index set is exactly the
concatenation of the produced mappings' index lists, duplicate-free and in
range. -/
lemma map_loop_invariant (blocks : List ContentBlock) :
    ∀ (ps : List Placeholder) (ms : List ContentMapping) (used : List Int),
      used = (ms.map (fun m => m.content_block_indices)).flatten →
      used.Nodup →
      (∀ j ∈ used, 0 ≤ j ∧ j < (blocks.length : Int)) →
      ((map_loop blocks ps ms used).2 =
          ((map_loop blocks ps ms used).1.map
            (fun m => m.content_block_indices)).flatten ∧
       (map_loop blocks ps ms used).2.Nodup ∧
       (∀ j ∈ (map_loop blocks ps ms used).2, 0 ≤ j ∧ j < (blocks.length : Int))) := by
  intro ps
  induction ps with
  | nil =>
    intro ms used h1 h2 h3
    exact ⟨h1, h2, h3⟩
  | cons p ps ih =>
    intro ms used h1 h2 h3
    simp only [map_loop]
    cases ham : auto_map_placeholder p blocks used with
    | none => exact ih ms used h1 h2 h3
    | some m =>
      obtain ⟨hpw, hprop⟩ := auto_map_placeholder_spec p blocks used m ham
      refine ih (ms ++ [m]) (used ++ m.content_block_indices) ?_ ?_ ?_
      · rw [h1]
        simp
      · rw [List.nodup_append]
        refine ⟨h2, ?_, ?_⟩
        · exact hpw.imp ne_of_lt
        · intro a ha hamem
          exact (hprop a hamem).1 ha
      · intro j hj
        rcases List.mem_append.mp hj with hj | hj
        · exact h3 j hj
        · exact (hprop j hj).2

/-- The body-merge step only moves indices between the mapping lists and the
unmapped list (sorting some of them), so the combined multiset is
preserved. -/
lemma merge_unmapped_perm :
    ∀ (ms : List ContentMapping) (u : List Int),
      ((((merge_unmapped ms u).1.map (fun m => m.content_block_indices)).flatten ++
        (merge_unmapped ms u).2).Perm
       ((ms.map (fun m => m.content_block_indices)).flatten ++ u)) := by
  intro ms
  induction ms with
  | nil => intro u; simp [merge_unmapped]
  | cons m rest ih =>
    intro u
    by_cases hb : has_body_id m.placeholder_id = true
    · by_cases hu : u = []
      · subst hu
        simp [merge_unmapped, hb]
      · simp only [merge_unmapped, hb, if_true, if_neg hu, List.map_cons,
          List.flatten_cons, List.append_nil]
        refine ((List.perm_insertionSort (· ≤ ·)
          (m.content_block_indices ++ u)).append_right _).trans ?_
        rw [List.append_assoc, List.append_assoc]
        exact (List.perm_append_comm).append_left m.content_block_indices
    · have hb' : has_body_id m.placeholder_id = false := by
        simpa using hb
      simp only [merge_unmapped, hb', Bool.false_eq_true, if_false, List.map_cons,
        List.flatten_cons]
      rw [List.append_assoc, List.append_assoc]
      exact (ih u).append_left m.content_block_indices

/-- Claim C1: for every rule-based mapping plan built from a template that
contains a BODY placeholder, the indices of all mappings together with the
unmapped list form a permutation of `[0, len(raw_blocks))`: every index is
in range, none appears twice (across or within mappings), and none is
lost.  (The partition in fact holds for every template; the hypothesis
restricts the statement to the claimed case.) -/
theorem C1_mapping_plan_partitions_block_range (template : ParsedTemplate)
    (content : DocumentStructure)
    (_hbody : ∃ p ∈ template.placeholders, p.placeholder_type = PlaceholderType.body) :
    ((((create_mapping_auto template content).mappings.map
        (fun m => m.content_block_indices)).flatten ++
      (create_mapping_auto template content).unmapped_content).Perm
     (int_range content.raw_blocks.length)) := by
  unfold create_mapping_auto
  obtain ⟨hused, hnd, hrange⟩ := map_loop_invariant content.raw_blocks
    template.placeholders [] [] rfl List.nodup_nil (by simp)
  set ML := map_loop content.raw_blocks template.placeholders [] [] with hML
  set unmapped := (int_range content.raw_blocks.length).filter
    (fun i => decide (i ∉ ML.2)) with hunm
  refine (merge_unmapped_perm ML.1 unmapped).trans ?_
  rw [← hused]
  have hnd_unm : unmapped.Nodup := (int_range_nodup _).filter _
  have hnd_all : (ML.2 ++ unmapped).Nodup := by
    rw [List.nodup_append]
    refine ⟨hnd, hnd_unm, ?_⟩
    intro a ha hamem
    rw [hunm, List.mem_filter] at hamem
    have : a ∉ ML.2 := by simpa using hamem.2
    exact this ha
  rw [List.perm_ext_iff_of_nodup hnd_all (int_range_nodup _)]
  intro j
  constructor
  · intro hj
    rcases List.mem_append.mp hj with hj | hj
    · exact mem_int_range.mpr (hrange j hj)
    · rw [hunm, List.mem_filter] at hj
      exact hj.1
  · intro hj
    by_cases hin : j ∈ ML.2
    · exact List.mem_append.mpr (Or.inl hin)
    · refine List.mem_append.mpr (Or.inr ?_)
      rw [hunm, List.mem_filter]
      exact ⟨hj, by simpa using hin⟩

/-- Template and content for the C1 witness: TITLE and BODY placeholders,
four blocks; the subtitle heading at index 1 is skipped by the BODY rule
and re-enters the BODY mapping through the unmapped-merge. -/
def c1_template : ParsedTemplate :=
  { placeholders := [placeholder_of "\x7b\x7bTITLE\x7d\x7d",
                     placeholder_of "\x7b\x7bBODY\x7d\x7d"] }

def c1_content : DocumentStructure :=
  { raw_blocks := [heading_block "T" 1, heading_block "S" 2, paragraph_block "x",
                   paragraph_block "y"] }

/-- Witness for claim C1 at a concrete template containing a BODY
placeholder. -/
theorem C1_mapping_plan_partitions_block_range_witness :
    ((((create_mapping_auto c1_template c1_content).mappings.map
        (fun m => m.content_block_indices)).flatten ++
      (create_mapping_auto c1_template c1_content).unmapped_content).Perm
     (int_range c1_content.raw_blocks.length)) :=
  C1_mapping_plan_partitions_block_range c1_template c1_content (by decide)

end MdToDocx
